import Mathlib

/-!
Shallow embedding of the candidate-aggregation and recommendation engine of
the movie-metadata aggregation service (`main.go`).

The upstream OMDb provider is modelled as an oracle (`Provider`): each of the
three query shapes the code issues (detail by title, keyword search, detail by
id) is a function from the query parameters to the decoded JSON body, with
`none` standing for a transport error, a non-200 status, or a decode failure
(`fetchJSON` returning an error).  A decoded body `map[string]interface{}` is
modelled as an association list from field name to `JVal`, where `JVal.str`
is a JSON string and `JVal.other` stands for any non-string JSON value (the
Go code only ever observes a field through a `.(string)` type assertion or an
`== "literal"` comparison, so this distinction is the only one it can see).

Two deliberate determinizations / restrictions of the model are noted inline:
the iteration order of the Go `found` map (we use insertion order), and the
grammar of `strconv.ParseFloat` (we model its decimal core).
-/

namespace MovieAPI

/-- A JSON value as observed by the Go code: a string, or anything else. -/
inductive JVal where
  | str : String → JVal
  | other : JVal
deriving DecidableEq, Repr

/-- Go `map[string]interface{}` for a decoded detail body, as an association
list from field name to value (first binding wins, mirroring map lookup). -/
abbrev DetailRecord := List (String × JVal)

/-- Go `m[k].(string)`: the field `k` of `m` when present and a string. -/
def getStr (m : DetailRecord) (k : String) : Option String :=
  match m.lookup k with
  | some (JVal.str s) => some s
  | _ => none

/-- Go `searchItem` (field `Type` is renamed `typeField`: `Type` is reserved). -/
structure searchItem where
  Title : String
  ImdbID : String
  typeField : String
deriving DecidableEq, Repr

/-- Go `searchResult`.  `Search = none` models a `nil` slice (field absent
from the JSON body). -/
structure searchResult where
  Search : Option (List searchItem)
  Response : String
  Error : String
deriving DecidableEq, Repr

/-- The upstream provider as an oracle over the three query shapes issued by
the code (`t=title`, `s=keyword&page=p`, `i=id`).  `none` models a transport
error, non-200 status, or JSON decode failure of `fetchJSON`. -/
structure Provider where
  byTitle : String → Option DetailRecord
  search : String → Nat → Option searchResult
  byID : String → Option DetailRecord

/-- Go `searchByKeyword`: `nil` on fetch error or `Response == "False"`,
otherwise the decoded `Search` slice (itself possibly `nil`). -/
def searchByKeyword (P : Provider) (keyword : String) (page : Nat) :
    Option (List searchItem) :=
  match P.search keyword page with
  | none => none
  | some sr => if sr.Response = "False" then none else sr.Search

/-- Go `getDetailByID`: error on fetch failure or `Response == "False"`. -/
def getDetailByID (P : Provider) (id : String) : Option DetailRecord :=
  match P.byID id with
  | none => none
  | some md => if getStr md "Response" = some "False" then none else some md

/-- The inner loop of `getDetailByTitle`'s fallback: first hit with a
non-empty `ImdbID` whose detail fetch succeeds. -/
def tryHits (P : Provider) : List searchItem → Option DetailRecord
  | [] => none
  | it :: rest =>
    if it.ImdbID = "" then tryHits P rest
    else
      match getDetailByID P it.ImdbID with
      | some m => some m
      | none => tryHits P rest

/-- The page loop of `getDetailByTitle`'s fallback (`for p := 1; p <= 2`). -/
def searchFallback (P : Provider) (title : String) : List Nat → Option DetailRecord
  | [] => none
  | p :: ps =>
    match searchByKeyword P title p with
    | none => searchFallback P title ps
    | some items =>
      match tryHits P items with
      | some m => some m
      | none => searchFallback P title ps

/-- Go `getDetailByTitle`: direct lookup, returned only when `Response` is
the string `"True"`; otherwise keyword search over pages 1 and 2. -/
def getDetailByTitle (P : Provider) (title : String) : Option DetailRecord :=
  match P.byTitle title with
  | some md =>
    if getStr md "Response" = some "True" then some md
    else searchFallback P title [1, 2]
  | none => searchFallback P title [1, 2]

/-- `isPrefixL needle hay`: `needle` is a prefix of `hay`. -/
def isPrefixL : List Char → List Char → Bool
  | [], _ => true
  | _ :: _, [] => false
  | a :: as, b :: bs => a == b && isPrefixL as bs

/-- `containsL needle hay`: `needle` occurs as a contiguous substring. -/
def containsL (needle : List Char) : List Char → Bool
  | [] => isPrefixL needle []
  | c :: t => isPrefixL needle (c :: t) || containsL needle t

/-- Go `strings.Contains hay needle` (on the underlying character lists). -/
def strContains (hay needle : String) : Bool :=
  containsL needle.toList hay.toList

/-- Go `strings.ToLower` restricted to its ASCII action (`String.toLower`
character by character, written through the character list so that it
evaluates by kernel reduction). -/
def strToLower (s : String) : String :=
  String.mk (s.data.map Char.toLower)

/-- The admission test of `collectByGenre`:
`strings.Contains(strings.ToLower(md["Genre"].(string)), strings.ToLower(gen))`,
false when the `Genre` field is absent or not a string. -/
def genreMatches (md : DetailRecord) (gen : String) : Bool :=
  match getStr md "Genre" with
  | some g => strContains (strToLower g) (strToLower gen)
  | none => false

/-- The hardcoded seed-keyword list `kw` of `collectByGenre`. -/
def kwSeeds : List String :=
  ["the", "a", "man", "love", "star", "dark", "king", "matrix", "avengers"]

/-- The inner item loop of `collectByGenre` over one page of search hits.
`found` is the Go dedup map, modelled as an insertion-ordered association
list (the Go map's iteration order is unspecified; insertion order is our
determinization of it). -/
def collectItems (P : Provider) (gen : String) (limit : Nat)
    (found : List (String × DetailRecord)) :
    List searchItem → List (String × DetailRecord)
  | [] => found
  | it :: rest =>
    if it.ImdbID = "" then collectItems P gen limit found rest
    else if (found.lookup it.ImdbID).isSome then collectItems P gen limit found rest
    else
      match getDetailByID P it.ImdbID with
      | none => collectItems P gen limit found rest
      | some md =>
        if genreMatches md gen then
          if limit ≤ (found ++ [(it.ImdbID, md)]).length then
            found ++ [(it.ImdbID, md)]
          else collectItems P gen limit (found ++ [(it.ImdbID, md)]) rest
        else collectItems P gen limit found rest

/-- The outer keyword loop of `collectByGenre`. -/
def collectSeeds (P : Provider) (gen : String) (limit : Nat)
    (found : List (String × DetailRecord)) :
    List String → List (String × DetailRecord)
  | [] => found
  | k :: ks =>
    match searchByKeyword P k 1 with
    | none => collectSeeds P gen limit found ks
    | some items =>
      let found2 := collectItems P gen limit found items
      if limit ≤ found2.length then found2
      else collectSeeds P gen limit found2 ks

/-- Go `collectByGenre`: the values of the dedup map, in insertion order. -/
def collectByGenre (P : Provider) (gen : String) (limit : Nat) :
    List DetailRecord :=
  (collectSeeds P gen limit [] kwSeeds).map Prod.snd

/-- Sign parsing of a float literal: `('-' | '+')?`; true means negative. -/
def parseSign : List Char → Bool × List Char
  | '-' :: t => (true, t)
  | '+' :: t => (false, t)
  | l => (false, l)

/-- The value of a digit string, most significant first. -/
def digitsVal (l : List Char) : Nat :=
  l.foldl (fun a c => a * 10 + (c.toNat - 48)) 0

/-- Mantissa of a float literal: `digits ['.' digits]` with at least one
digit overall; returns its value and the unconsumed remainder. -/
def parseMantissa (l : List Char) : Option (Rat × List Char) :=
  let intd := l.takeWhile Char.isDigit
  let rest := l.dropWhile Char.isDigit
  match rest with
  | '.' :: r2 =>
    let fracd := r2.takeWhile Char.isDigit
    let rest2 := r2.dropWhile Char.isDigit
    if intd.isEmpty && fracd.isEmpty then none
    else some ((digitsVal intd : Rat) + (digitsVal fracd : Rat) / ((10 : Rat) ^ fracd.length), rest2)
  | _ =>
    if intd.isEmpty then none else some ((digitsVal intd : Rat), rest)

/-- Exponent suffix of a float literal: empty, or `('e'|'E') sign? digits`
consuming the whole remainder. -/
def parseExp : List Char → Option Int
  | [] => some 0
  | c :: r =>
    if c = 'e' ∨ c = 'E' then
      let sg := parseSign r
      let ds := sg.2.takeWhile Char.isDigit
      let rest := sg.2.dropWhile Char.isDigit
      if ds.isEmpty ∨ ¬ rest.isEmpty then none
      else some (if sg.1 then -(digitsVal ds : Int) else (digitsVal ds : Int))
    else none

/-- The decimal core of Go `strconv.ParseFloat`: optional sign, decimal
mantissa with optional fraction, optional decimal exponent, full consumption;
`none` on any other input.  Hex floats, `Inf`/`NaN`, digit underscores and
the overflow-to-infinity range error are not modelled: no claim under
verification depends on those inputs, and exact rational values stand in for
the float rounding (monotone on the ratings the code compares). -/
def parseFloat (s : String) : Option Rat :=
  let sg := parseSign s.toList
  match parseMantissa sg.2 with
  | none => none
  | some (m, rest) =>
    match parseExp rest with
    | none => none
    | some e => some (if sg.1 then -(m * (10 : Rat) ^ e) else m * (10 : Rat) ^ e)

/-- Go `ratingVal`: the parsed `imdbRating` field; 0 when the field is
absent, not a string, empty, `"N/A"`, or fails to parse. -/
def ratingVal (m : DetailRecord) : Rat :=
  match getStr m "imdbRating" with
  | some r =>
    if r = "N/A" ∨ r = "" then 0
    else
      match parseFloat r with
      | some f => f
      | none => 0
  | none => 0

/-- Insert a record into a list sorted by non-increasing `ratingVal`. -/
def insertDesc (x : DetailRecord) : List DetailRecord → List DetailRecord
  | [] => [x]
  | y :: ys => if ratingVal y ≤ ratingVal x then x :: y :: ys else y :: insertDesc x ys

/-- Sort by non-increasing `ratingVal` (a sort consistent with the
`sort.Slice` comparator `ratingVal i > ratingVal j`; `sort.Slice` is
unstable, so the relative order of equal ratings is unspecified in Go and
this is one of its admissible outcomes). -/
def sortDesc : List DetailRecord → List DetailRecord
  | [] => []
  | x :: xs => insertDesc x (sortDesc xs)

/-- Go `topByRating`: sort descending by rating, truncate to `n`. -/
def topByRating (list : List DetailRecord) (n : Nat) : List DetailRecord :=
  (sortDesc list).take n

/-- Go `strings.Split(s, ",")` on the character list: split around every
comma (`strings.Split("", ",") = [""]`, matching the empty case). -/
def splitCommaL : List Char → List (List Char)
  | [] => [[]]
  | c :: t =>
    if c = ',' then [] :: splitCommaL t
    else
      match splitCommaL t with
      | [] => [[c]]
      | h :: r => (c :: h) :: r

/-- Go `strings.Split(s, ",")`. -/
def splitComma (s : String) : List String :=
  (splitCommaL s.data).map String.mk

/-- Go `strings.TrimSpace` restricted to its ASCII action: strip leading and
trailing whitespace characters (written through the character list so that
it evaluates by kernel reduction). -/
def strTrim (s : String) : String :=
  String.mk
    (((s.data.dropWhile Char.isWhitespace).reverse.dropWhile
      Char.isWhitespace).reverse)

/-- The `perLevel` constant of `recommendHandler`. -/
def perLevel : Nat := 20

/-- The seeding of the `seen` set in `recommendHandler`: the favourite's own
`imdbID` when it is a non-empty string. -/
def seedSeen (seed : DetailRecord) : List String :=
  match getStr seed "imdbID" with
  | some id => if id = "" then [] else [id]
  | none => []

/-- The inner admission loop shared by the three phases of
`recommendHandler`: admit candidates whose `imdbID` is a string not in
`seen`, stopping once `perLvl` results are accumulated. -/
def admitLoop (perLvl : Nat) (seen : List String) (result : List DetailRecord) :
    List DetailRecord → List String × List DetailRecord
  | [] => (seen, result)
  | m :: ms =>
    match getStr m "imdbID" with
    | some id =>
      if id ∈ seen then admitLoop perLvl seen result ms
      else
        if perLvl ≤ (result ++ [m]).length then (id :: seen, result ++ [m])
        else admitLoop perLvl (id :: seen) (result ++ [m]) ms
    | none => admitLoop perLvl seen result ms

/-- One term of any phase loop of `recommendHandler`: trim the term, gather
candidates through `collectByGenre` with the term as the filter
(`cands := topByRating(collectByGenre(term, perLevel), perLevel)`), then run
the admission loop on them.  All three phases execute exactly this step. -/
def phaseStep (P : Provider) (perLvl : Nat) (seen : List String)
    (result : List DetailRecord) (t : String) : List String × List DetailRecord :=
  admitLoop perLvl seen result (topByRating (collectByGenre P (strTrim t) perLvl) perLvl)

/-- The genre-phase loop of `recommendHandler` over the comma-split `Genre`
field: per term, run `phaseStep`, stop once `perLvl` results accumulated. -/
def genreLoop (P : Provider) (perLvl : Nat) (seen : List String)
    (result : List DetailRecord) : List String → List String × List DetailRecord
  | [] => (seen, result)
  | t :: ts =>
    if perLvl ≤ (phaseStep P perLvl seen result t).2.length then
      phaseStep P perLvl seen result t
    else
      genreLoop P perLvl (phaseStep P perLvl seen result t).1
        (phaseStep P perLvl seen result t).2 ts

/-- The director-phase loop of `recommendHandler`: textually the same loop
as the genre phase, run over the comma-split `Director` field, reusing
`collectByGenre` with the director name as the filter. -/
def directorLoop (P : Provider) (perLvl : Nat) (seen : List String)
    (result : List DetailRecord) : List String → List String × List DetailRecord
  | [] => (seen, result)
  | t :: ts =>
    if perLvl ≤ (phaseStep P perLvl seen result t).2.length then
      phaseStep P perLvl seen result t
    else
      directorLoop P perLvl (phaseStep P perLvl seen result t).1
        (phaseStep P perLvl seen result t).2 ts

/-- The actor-phase loop of `recommendHandler`: textually the same loop as
the genre phase, run over the comma-split `Actors` field. -/
def actorLoop (P : Provider) (perLvl : Nat) (seen : List String)
    (result : List DetailRecord) : List String → List String × List DetailRecord
  | [] => (seen, result)
  | t :: ts =>
    if perLvl ≤ (phaseStep P perLvl seen result t).2.length then
      phaseStep P perLvl seen result t
    else
      actorLoop P perLvl (phaseStep P perLvl seen result t).1
        (phaseStep P perLvl seen result t).2 ts

/-- The genre phase of `recommendHandler`: runs only when the seed's `Genre`
field is a string; starts from the seeded `seen` set and an empty result. -/
def genrePhase (P : Provider) (seed : DetailRecord) :
    List String × List DetailRecord :=
  match getStr seed "Genre" with
  | some g => genreLoop P perLevel (seedSeen seed) [] (splitComma g)
  | none => (seedSeen seed, [])

/-- The director phase of `recommendHandler`: entered only when fewer than
`perLevel` results are accumulated and the seed's `Director` field is a
string. -/
def directorPhase (P : Provider) (seed : DetailRecord)
    (sr : List String × List DetailRecord) : List String × List DetailRecord :=
  if sr.2.length < perLevel then
    match getStr seed "Director" with
    | some d => directorLoop P perLevel sr.1 sr.2 (splitComma d)
    | none => sr
  else sr

/-- The actor phase of `recommendHandler`: entered only when fewer than
`perLevel` results are accumulated and the seed's `Actors` field is a
string. -/
def actorPhase (P : Provider) (seed : DetailRecord)
    (sr : List String × List DetailRecord) : List String × List DetailRecord :=
  if sr.2.length < perLevel then
    match getStr seed "Actors" with
    | some a => actorLoop P perLevel sr.1 sr.2 (splitComma a)
    | none => sr
  else sr

/-- The successful payload of `recommendHandler`: the resolved seed and the
recommendation list. -/
structure RecResult where
  seed : DetailRecord
  recs : List DetailRecord
deriving DecidableEq, Repr

/-- The core of `recommendHandler`: resolve the favourite title (`none`
models the 404 "favorite movie not found" reply), then run the three phases
and truncate to `perLevel`. -/
def recommend (P : Provider) (fav : String) : Option RecResult :=
  match getDetailByTitle P fav with
  | none => none
  | some seed =>
    some ⟨seed,
      ((actorPhase P seed (directorPhase P seed (genrePhase P seed))).2).take perLevel⟩

/-! ### Basic lemmas about the provider-facing helpers -/

/-- A successful `getDetailByID` returns the provider's record verbatim, and
that record's `Response` field is not the string `"False"`. -/
theorem getDetailByID_spec {P : Provider} {id : String} {md : DetailRecord}
    (h : getDetailByID P id = some md) :
    P.byID id = some md ∧ getStr md "Response" ≠ some "False" := by
  unfold getDetailByID at h
  cases hb : P.byID id with
  | none => rw [hb] at h; exact absurd h (by simp)
  | some md' =>
    rw [hb] at h
    by_cases hr : getStr md' "Response" = some "False"
    · simp [hr] at h
    · simp [hr] at h; subst h; exact ⟨rfl, hr⟩

/-! ### C7: the direct title lookup short-circuits the resolver -/

/-- C7: if the direct detail fetch by title returns a record whose `Response`
is `"True"`, `getDetailByTitle` returns exactly that record; and the result
is independent of the search and by-ID behaviour — two providers that agree
on the direct title fetch (both returning that record) but are otherwise
arbitrary resolve the title to the same record. -/
theorem C7_direct_title_lookup (P Q : Provider) (title : String)
    (md : DetailRecord) (hP : P.byTitle title = some md)
    (hQ : Q.byTitle title = some md)
    (hT : getStr md "Response" = some "True") :
    getDetailByTitle P title = some md ∧ getDetailByTitle Q title = some md := by
  constructor <;> unfold getDetailByTitle
  · rw [hP]; simp [hT]
  · rw [hQ]; simp [hT]

/-- A record as returned by a successful direct lookup. -/
def md7w : DetailRecord := [("Response", JVal.str "True"), ("Title", JVal.str "Inception")]

/-- A provider that answers the direct lookup and nothing else. -/
def P7quiet : Provider where
  byTitle := fun t => if t = "Inception" then some md7w else none
  search := fun _ _ => none
  byID := fun _ => none

/-- A provider that agrees on the direct lookup but also answers searches and
by-ID fetches with an unrelated record. -/
def P7noisy : Provider where
  byTitle := fun t => if t = "Inception" then some md7w else none
  search := fun _ _ => some ⟨some [⟨"Other", "zz9", "movie"⟩], "True", ""⟩
  byID := fun _ => some [("Title", JVal.str "Other"), ("imdbID", JVal.str "zz9")]

/-- C7 witness: the two concrete providers above resolve "Inception" to the
directly fetched record. -/
theorem C7_witness :
    getDetailByTitle P7quiet "Inception" = some md7w ∧
    getDetailByTitle P7noisy "Inception" = some md7w :=
  C7_direct_title_lookup P7quiet P7noisy "Inception" md7w (by decide) (by decide)
    (by decide)

/-! ### C8: recommend succeeds whenever the seed resolves -/

/-- C8: whenever the favourite title resolves, `recommend` returns a
successful result carrying that seed (never an error); `recommend` reports
NotFound (`none`) only when the title itself does not resolve; and a seed
with no string-valued `Genre`, `Director`, or `Actors` field yields the empty
recommendation list, not an error. -/
theorem C8_recommend_total_on_resolved_seed :
    (∀ P fav seed, getDetailByTitle P fav = some seed →
      ∃ res, recommend P fav = some res ∧ res.seed = seed) ∧
    (∀ P fav, recommend P fav = none → getDetailByTitle P fav = none) ∧
    (∀ P fav seed, getDetailByTitle P fav = some seed →
      getStr seed "Genre" = none → getStr seed "Director" = none →
      getStr seed "Actors" = none → recommend P fav = some ⟨seed, []⟩) := by
  refine ⟨?_, ?_, ?_⟩
  · intro P fav seed h
    refine ⟨⟨seed, ((actorPhase P seed (directorPhase P seed (genrePhase P seed))).2).take perLevel⟩,
      ?_, rfl⟩
    simp [recommend, h]
  · intro P fav h
    unfold recommend at h
    cases ht : getDetailByTitle P fav with
    | none => rfl
    | some seed => rw [ht] at h; exact absurd h (by simp)
  · intro P fav seed h hG hD hA
    have h1 : genrePhase P seed = (seedSeen seed, []) := by
      unfold genrePhase; rw [hG]
    have h2 : directorPhase P seed (seedSeen seed, []) = (seedSeen seed, []) := by
      unfold directorPhase; rw [hD]; simp [perLevel]
    have h3 : actorPhase P seed (seedSeen seed, []) = (seedSeen seed, []) := by
      unfold actorPhase; rw [hA]; simp [perLevel]
    simp [recommend, h, h1, h2, h3]

/-- A seed that resolves but has no `Genre`, `Director`, or `Actors` field. -/
def seed8w : DetailRecord := [("Response", JVal.str "True"), ("Title", JVal.str "Bare")]

/-- A provider resolving "Bare" to the bare seed and nothing else. -/
def P8w : Provider where
  byTitle := fun t => if t = "Bare" then some seed8w else none
  search := fun _ _ => none
  byID := fun _ => none

/-- A provider that answers nothing at all. -/
def P8none : Provider where
  byTitle := fun _ => none
  search := fun _ _ => none
  byID := fun _ => none

/-- C8 witness: with the bare seed, `recommend` succeeds with an empty list;
with the silent provider, `recommend` is NotFound only because resolution is. -/
theorem C8_witness :
    (∃ res, recommend P8w "Bare" = some res ∧ res.seed = seed8w) ∧
    getDetailByTitle P8none "x" = none ∧
    recommend P8w "Bare" = some ⟨seed8w, []⟩ :=
  ⟨C8_recommend_total_on_resolved_seed.1 P8w "Bare" seed8w (by decide),
   C8_recommend_total_on_resolved_seed.2.1 P8none "x" (by decide),
   C8_recommend_total_on_resolved_seed.2.2 P8w "Bare" seed8w (by decide) (by decide)
     (by decide) (by decide)⟩

/-! ### C3: the ranker -/

theorem mem_insertDesc {x y : DetailRecord} :
    ∀ {l : List DetailRecord}, y ∈ insertDesc x l ↔ y = x ∨ y ∈ l := by
  intro l
  induction l with
  | nil => simp [insertDesc]
  | cons z zs ih =>
    unfold insertDesc
    by_cases h : ratingVal z ≤ ratingVal x
    · simp [h]
    · simp only [h, if_false, List.mem_cons, ih]
      tauto

theorem sorted_insertDesc {x : DetailRecord} :
    ∀ {l : List DetailRecord},
      l.Pairwise (fun a b => ratingVal b ≤ ratingVal a) →
      (insertDesc x l).Pairwise (fun a b => ratingVal b ≤ ratingVal a) := by
  intro l
  induction l with
  | nil => intro _; simp [insertDesc]
  | cons z zs ih =>
    intro hs
    rw [List.pairwise_cons] at hs
    unfold insertDesc
    by_cases h : ratingVal z ≤ ratingVal x
    · rw [if_pos h]
      refine List.Pairwise.cons ?_ (List.Pairwise.cons hs.1 hs.2)
      intro b hb
      rcases List.mem_cons.mp hb with hb | hb
      · exact hb ▸ h
      · exact le_trans (hs.1 b hb) h
    · rw [if_neg h]
      refine List.Pairwise.cons ?_ (ih hs.2)
      intro b hb
      rcases mem_insertDesc.mp hb with hb | hb
      · exact hb ▸ le_of_not_le h
      · exact hs.1 b hb

theorem mem_sortDesc {y : DetailRecord} :
    ∀ {l : List DetailRecord}, y ∈ sortDesc l ↔ y ∈ l := by
  intro l
  induction l with
  | nil => simp [sortDesc]
  | cons z zs ih => simp [sortDesc, mem_insertDesc, ih]

theorem sorted_sortDesc :
    ∀ (l : List DetailRecord),
      (sortDesc l).Pairwise (fun a b => ratingVal b ≤ ratingVal a) := by
  intro l
  induction l with
  | nil => simp [sortDesc]
  | cons z zs ih => exact sorted_insertDesc ih

/-- C3: `topByRating list n` has length at most `n`, all its elements come
from `list`, and it is ordered by non-increasing `ratingVal`; and the rating
parse maps a missing (or non-string), empty, `"N/A"`, or unparseable
`imdbRating` field to 0. -/
theorem C3_topByRating_spec :
    (∀ (list : List DetailRecord) (n : Nat),
      (topByRating list n).length ≤ n ∧
      (∀ m ∈ topByRating list n, m ∈ list) ∧
      (topByRating list n).Pairwise (fun a b => ratingVal b ≤ ratingVal a)) ∧
    (∀ m : DetailRecord,
      (getStr m "imdbRating" = none ∨ getStr m "imdbRating" = some "" ∨
        getStr m "imdbRating" = some "N/A" ∨
        (∃ s, getStr m "imdbRating" = some s ∧ parseFloat s = none)) →
      ratingVal m = 0) := by
  constructor
  · intro list n
    refine ⟨List.length_take_le n _, ?_, ?_⟩
    · intro m hm
      exact mem_sortDesc.mp (List.take_subset n (sortDesc list) hm)
    · exact (sorted_sortDesc list).sublist (List.take_sublist n (sortDesc list))
  · intro m hm
    unfold ratingVal
    rcases hm with h | h | h | ⟨s, hs, hp⟩
    · rw [h]
    · rw [h]; simp
    · rw [h]; simp
    · rw [hs]
      by_cases he : s = "N/A" ∨ s = ""
      · simp [he]
      · simp [he, hp]

/-- Concrete records for the C3 witness: ratings 2.5, absent, `"N/A"`,
malformed. -/
def m3a : DetailRecord := [("imdbRating", JVal.str "2.5")]

def m3b : DetailRecord := [("Title", JVal.str "norating")]

def m3c : DetailRecord := [("imdbRating", JVal.str "N/A")]

def m3d : DetailRecord := [("imdbRating", JVal.str "7..2")]

/-- C3 witness: the ranker bounds, membership and order at a concrete list,
and the zero cases of the rating parse at concrete records. -/
theorem C3_witness :
    ((topByRating [m3b, m3a, m3c] 2).length ≤ 2 ∧
      (∀ m ∈ topByRating [m3b, m3a, m3c] 2, m ∈ [m3b, m3a, m3c]) ∧
      (topByRating [m3b, m3a, m3c] 2).Pairwise
        (fun a b => ratingVal b ≤ ratingVal a)) ∧
    ratingVal m3b = 0 ∧ ratingVal m3c = 0 ∧ ratingVal m3d = 0 :=
  ⟨C3_topByRating_spec.1 [m3b, m3a, m3c] 2,
   C3_topByRating_spec.2 m3b (Or.inl (by decide)),
   C3_topByRating_spec.2 m3c (Or.inr (Or.inr (Or.inl (by decide)))),
   C3_topByRating_spec.2 m3d (Or.inr (Or.inr (Or.inr ⟨"7..2", by decide, by decide⟩)))⟩

/-! ### The collector's dedup-map invariant -/

theorem lookup_isSome_iff {β : Type} (l : List (String × β)) (k : String) :
    (l.lookup k).isSome = true ↔ k ∈ l.map Prod.fst := by
  induction l with
  | nil => simp [List.lookup]
  | cons p ps ih =>
    rcases p with ⟨a, b⟩
    by_cases h : k = a
    · subst h; simp [List.lookup]
    · have hba : (k == a) = false := beq_false_of_ne h
      simp [List.lookup, hba, ih, h]

/-- Invariant of the collector's dedup map: every entry is keyed by the
non-empty `imdbID` of the search hit that produced it, holds the record a
successful `getDetailByID` fetch returned for that key, that record passed
the genre filter, and the keys are pairwise distinct. -/
def FoundInv (P : Provider) (gen : String)
    (found : List (String × DetailRecord)) : Prop :=
  (∀ p ∈ found,
    p.1 ≠ "" ∧ getDetailByID P p.1 = some p.2 ∧ genreMatches p.2 gen = true) ∧
  (found.map Prod.fst).Nodup

theorem collectItems_inv (P : Provider) (gen : String) (limit : Nat) :
    ∀ (items : List searchItem) (found : List (String × DetailRecord)),
      FoundInv P gen found →
      FoundInv P gen (collectItems P gen limit found items) := by
  intro items
  induction items with
  | nil => intro found h; exact h
  | cons it rest ih =>
    intro found h
    unfold collectItems
    split
    · exact ih found h
    split
    · exact ih found h
    split
    · exact ih found h
    rename_i md hmd
    have h1' : it.ImdbID ≠ "" := by assumption
    have h2' : ¬(found.lookup it.ImdbID).isSome = true := by assumption
    have hnotin : it.ImdbID ∉ found.map Prod.fst := by
      intro hmem
      exact h2' ((lookup_isSome_iff found it.ImdbID).mpr hmem)
    split
    · rename_i h3
      have hinv' : FoundInv P gen (found ++ [(it.ImdbID, md)]) := by
        constructor
        · intro p hp
          rcases List.mem_append.mp hp with hp | hp
          · exact h.1 p hp
          · rcases List.mem_singleton.mp hp with rfl
            exact ⟨h1', hmd, h3⟩
        · rw [List.map_append]
          refine List.Nodup.append h.2 (by simp) ?_
          intro a ha hb
          simp only [List.map_cons, List.map_nil, List.mem_singleton] at hb
          exact hnotin (hb ▸ ha)
      split
      · exact hinv'
      · exact ih _ hinv'
    · exact ih found h

theorem collectSeeds_inv (P : Provider) (gen : String) (limit : Nat) :
    ∀ (ks : List String) (found : List (String × DetailRecord)),
      FoundInv P gen found →
      FoundInv P gen (collectSeeds P gen limit found ks) := by
  intro ks
  induction ks with
  | nil => intro found h; exact h
  | cons k rest ih =>
    intro found h
    unfold collectSeeds
    cases hsr : searchByKeyword P k 1 with
    | none => exact ih found h
    | some items =>
      simp only []
      by_cases h4 : limit ≤ (collectItems P gen limit found items).length
      · rw [if_pos h4]; exact collectItems_inv P gen limit items found h
      · rw [if_neg h4]; exact ih _ (collectItems_inv P gen limit items found h)

theorem collectByGenre_inv (P : Provider) (gen : String) (limit : Nat) :
    FoundInv P gen (collectSeeds P gen limit [] kwSeeds) :=
  collectSeeds_inv P gen limit kwSeeds [] ⟨by simp, by simp⟩

/-- Every record emitted by `collectByGenre` passed the genre filter. -/
theorem collectByGenre_matches {P : Provider} {gen : String} {limit : Nat}
    {md : DetailRecord} (h : md ∈ collectByGenre P gen limit) :
    genreMatches md gen = true := by
  unfold collectByGenre at h
  rcases List.mem_map.mp h with ⟨p, hp, rfl⟩
  exact ((collectByGenre_inv P gen limit).1 p hp).2.2

/-! ### C1: the director/actor fallbacks reuse the genre-matching collector -/

/-- The admission test reads only the `Genre` field: records that agree on
`Genre` are matched identically, whatever their `Director`, `Actors`, or any
other field holds. -/
theorem genreMatches_congr {md₁ md₂ : DetailRecord} (gen : String)
    (h : getStr md₁ "Genre" = getStr md₂ "Genre") :
    genreMatches md₁ gen = genreMatches md₂ gen := by
  unfold genreMatches
  rw [h]

/-- A fetched candidate failing the genre test leaves no trace: the collector
continues as if the hit had not been there. -/
theorem collectItems_skips_nonmatching (P : Provider) (gen : String)
    (limit : Nat) (found : List (String × DetailRecord)) (it : searchItem)
    (rest : List searchItem) (md : DetailRecord) (h1 : it.ImdbID ≠ "")
    (h2 : found.lookup it.ImdbID = none)
    (hmd : getDetailByID P it.ImdbID = some md)
    (h3 : genreMatches md gen = false) :
    collectItems P gen limit found (it :: rest) =
      collectItems P gen limit found rest := by
  conv_lhs => rw [collectItems]
  rw [if_neg h1, h2]
  simp only [Option.isSome_none, Bool.false_eq_true, if_false, hmd, h3]

/-- The director-phase loop is extensionally the genre-phase loop. -/
theorem directorLoop_eq_genreLoop (P : Provider) (perLvl : Nat) :
    ∀ (ts seen : List String) (result : List DetailRecord),
      directorLoop P perLvl seen result ts = genreLoop P perLvl seen result ts := by
  intro ts
  induction ts with
  | nil => intro s r; rfl
  | cons t ts ih =>
    intro s r
    unfold directorLoop genreLoop
    by_cases h : perLvl ≤ (phaseStep P perLvl s r t).2.length
    · rw [if_pos h, if_pos h]
    · rw [if_neg h, if_neg h, ih]

/-- The actor-phase loop is extensionally the genre-phase loop. -/
theorem actorLoop_eq_genreLoop (P : Provider) (perLvl : Nat) :
    ∀ (ts seen : List String) (result : List DetailRecord),
      actorLoop P perLvl seen result ts = genreLoop P perLvl seen result ts := by
  intro ts
  induction ts with
  | nil => intro s r; rfl
  | cons t ts ih =>
    intro s r
    unfold actorLoop genreLoop
    by_cases h : perLvl ≤ (phaseStep P perLvl s r t).2.length
    · rw [if_pos h, if_pos h]
    · rw [if_neg h, if_neg h, ih]

/-- C1: the director and actor fallback phases run the same loop as the
genre phase, whose per-term step gathers candidates through `collectByGenre`
with the (trimmed) director/actor name as the filter; that collector admits
a fetched candidate exactly when the candidate's `Genre` field contains the
filter as a case-insensitive substring — every emitted record passes the
test, a fetched candidate failing it is skipped, and the test reads only the
`Genre` field, never `Director` or `Actors`. -/
theorem C1_fallback_phases_filter_by_genre :
    (∀ (P : Provider) (perLvl : Nat) (ts seen : List String)
        (result : List DetailRecord),
      directorLoop P perLvl seen result ts = genreLoop P perLvl seen result ts ∧
      actorLoop P perLvl seen result ts = genreLoop P perLvl seen result ts) ∧
    (∀ (P : Provider) (perLvl : Nat) (seen : List String)
        (result : List DetailRecord) (t : String),
      phaseStep P perLvl seen result t =
        admitLoop perLvl seen result
          (topByRating (collectByGenre P (strTrim t) perLvl) perLvl)) ∧
    (∀ (md : DetailRecord) (gen : String),
      genreMatches md gen =
        match getStr md "Genre" with
        | some g => strContains (strToLower g) (strToLower gen)
        | none => false) ∧
    (∀ (P : Provider) (gen : String) (limit : Nat) (md : DetailRecord),
      md ∈ collectByGenre P gen limit → genreMatches md gen = true) ∧
    (∀ (P : Provider) (gen : String) (limit : Nat)
        (found : List (String × DetailRecord)) (it : searchItem)
        (rest : List searchItem) (md : DetailRecord),
      it.ImdbID ≠ "" → found.lookup it.ImdbID = none →
      getDetailByID P it.ImdbID = some md → genreMatches md gen = false →
      collectItems P gen limit found (it :: rest) =
        collectItems P gen limit found rest) ∧
    (∀ (md₁ md₂ : DetailRecord) (gen : String),
      getStr md₁ "Genre" = getStr md₂ "Genre" →
      genreMatches md₁ gen = genreMatches md₂ gen) := by
  refine ⟨?_, ?_, ?_, ?_, ?_, ?_⟩
  · intro P perLvl ts seen result
    exact ⟨directorLoop_eq_genreLoop P perLvl ts seen result,
      actorLoop_eq_genreLoop P perLvl ts seen result⟩
  · intro P perLvl seen result t; rfl
  · intro md gen; rfl
  · intro P gen limit md h; exact collectByGenre_matches h
  · intro P gen limit found it rest md h1 h2 hmd h3
    exact collectItems_skips_nonmatching P gen limit found it rest md h1 h2 hmd h3
  · intro md₁ md₂ gen h; exact genreMatches_congr gen h

/-- A provider for the C1 witness: one hit whose record is a horror title,
one hit whose record is a comedy title. -/
def P1w : Provider where
  byTitle := fun _ => none
  search := fun k p =>
    if k = "the" ∧ p = 1 then some ⟨some [⟨"A", "c1", "movie"⟩], "True", ""⟩
    else none
  byID := fun id =>
    if id = "c1" then some [("Genre", JVal.str "Horror"), ("imdbID", JVal.str "c1")]
    else if id = "c2" then some [("Genre", JVal.str "Comedy"), ("imdbID", JVal.str "c2")]
    else none

/-- The horror record `P1w` serves for id `c1`. -/
def md1w : DetailRecord := [("Genre", JVal.str "Horror"), ("imdbID", JVal.str "c1")]

/-- The comedy record `P1w` serves for id `c2`. -/
def md2w : DetailRecord := [("Genre", JVal.str "Comedy"), ("imdbID", JVal.str "c2")]

/-- A search hit pointing at the comedy record. -/
def it2w : searchItem := ⟨"T", "c2", "movie"⟩

/-- Two records agreeing on `Genre` but with different `Director`/`Actors`. -/
def mdDirA : DetailRecord :=
  [("Genre", JVal.str "Action"), ("Director", JVal.str "Nolan")]

/-- Companion record to `mdDirA` with other `Director`/`Actors` values. -/
def mdDirB : DetailRecord :=
  [("Genre", JVal.str "Action"), ("Director", JVal.str "Bigelow"),
   ("Actors", JVal.other)]

/-- C1 witness: at concrete inputs — an emitted record passes the genre
test, a non-matching fetched candidate is skipped, records differing only
outside `Genre` are matched identically, and the phase loops coincide. -/
theorem C1_witness :
    genreMatches md1w "horror" = true ∧
    collectItems P1w "horror" 5 [] [it2w] = collectItems P1w "horror" 5 [] [] ∧
    genreMatches mdDirA "action" = genreMatches mdDirB "action" ∧
    directorLoop P1w perLevel [] [] ["Horror"] =
      genreLoop P1w perLevel [] [] ["Horror"] :=
  ⟨C1_fallback_phases_filter_by_genre.2.2.2.1 P1w "horror" 5 md1w (by decide),
   C1_fallback_phases_filter_by_genre.2.2.2.2.1 P1w "horror" 5 [] it2w [] md2w
     (by decide) (by decide) (by decide) (by decide),
   C1_fallback_phases_filter_by_genre.2.2.2.2.2 mdDirA mdDirB "action" (by decide),
   (C1_fallback_phases_filter_by_genre.1 P1w perLevel ["Horror"] [] []).1⟩

/-! ### The admission loop's `seen`-set invariants -/

/-- If `sid` is already in `seen` and absent from the accumulated result,
the admission loop keeps it in `seen` and never admits a record whose
`imdbID` is `sid`. -/
theorem admitLoop_avoid (perLvl : Nat) (sid : String) :
    ∀ (cands : List DetailRecord) (seen : List String)
      (result : List DetailRecord),
      sid ∈ seen → (∀ m ∈ result, getStr m "imdbID" ≠ some sid) →
      sid ∈ (admitLoop perLvl seen result cands).1 ∧
      ∀ m ∈ (admitLoop perLvl seen result cands).2,
        getStr m "imdbID" ≠ some sid := by
  intro cands
  induction cands with
  | nil => intro seen result hs hr; exact ⟨hs, hr⟩
  | cons m ms ih =>
    intro seen result hs hr
    unfold admitLoop
    split
    · rename_i id hid
      split
      · exact ih seen result hs hr
      · rename_i hnotin
        have hr' : ∀ m' ∈ result ++ [m], getStr m' "imdbID" ≠ some sid := by
          intro m' hm'
          rcases List.mem_append.mp hm' with hmem | hmem
          · exact hr m' hmem
          · rcases List.mem_singleton.mp hmem with rfl
            rw [hid]
            intro hcontra
            exact hnotin ((Option.some.injEq _ _ ▸ hcontra : id = sid) ▸ hs)
        have hs' : sid ∈ id :: seen := List.mem_cons_of_mem id hs
        split
        · exact ⟨hs', hr'⟩
        · exact ih _ _ hs' hr'
    · exact ih seen result hs hr

/-- The phase loops preserve the same invariant (stated for the genre loop;
the other two loops are extensionally equal to it). -/
theorem genreLoop_avoid (P : Provider) (perLvl : Nat) (sid : String) :
    ∀ (ts seen : List String) (result : List DetailRecord),
      sid ∈ seen → (∀ m ∈ result, getStr m "imdbID" ≠ some sid) →
      sid ∈ (genreLoop P perLvl seen result ts).1 ∧
      ∀ m ∈ (genreLoop P perLvl seen result ts).2,
        getStr m "imdbID" ≠ some sid := by
  intro ts
  induction ts with
  | nil => intro seen result hs hr; exact ⟨hs, hr⟩
  | cons t ts ih =>
    intro seen result hs hr
    unfold genreLoop
    have hstep := admitLoop_avoid perLvl sid
      (topByRating (collectByGenre P (strTrim t) perLvl) perLvl) seen result hs hr
    by_cases h : perLvl ≤ (phaseStep P perLvl seen result t).2.length
    · rw [if_pos h]; exact hstep
    · rw [if_neg h]; exact ih _ _ hstep.1 hstep.2

theorem genrePhase_avoid {P : Provider} {seed : DetailRecord} {sid : String}
    (h0 : sid ∈ seedSeen seed) :
    sid ∈ (genrePhase P seed).1 ∧
    ∀ m ∈ (genrePhase P seed).2, getStr m "imdbID" ≠ some sid := by
  unfold genrePhase
  cases hg : getStr seed "Genre" with
  | none => exact ⟨h0, by simp⟩
  | some g => exact genreLoop_avoid P perLevel sid (splitComma g) _ [] h0 (by simp)

theorem directorPhase_avoid {P : Provider} {seed : DetailRecord} {sid : String}
    {sr : List String × List DetailRecord} (hs : sid ∈ sr.1)
    (hr : ∀ m ∈ sr.2, getStr m "imdbID" ≠ some sid) :
    sid ∈ (directorPhase P seed sr).1 ∧
    ∀ m ∈ (directorPhase P seed sr).2, getStr m "imdbID" ≠ some sid := by
  unfold directorPhase
  by_cases h : sr.2.length < perLevel
  · rw [if_pos h]
    split
    · rename_i d hd
      rw [directorLoop_eq_genreLoop]
      exact genreLoop_avoid P perLevel sid (splitComma d) sr.1 sr.2 hs hr
    · exact ⟨hs, hr⟩
  · rw [if_neg h]; exact ⟨hs, hr⟩

theorem actorPhase_avoid {P : Provider} {seed : DetailRecord} {sid : String}
    {sr : List String × List DetailRecord} (hs : sid ∈ sr.1)
    (hr : ∀ m ∈ sr.2, getStr m "imdbID" ≠ some sid) :
    sid ∈ (actorPhase P seed sr).1 ∧
    ∀ m ∈ (actorPhase P seed sr).2, getStr m "imdbID" ≠ some sid := by
  unfold actorPhase
  by_cases h : sr.2.length < perLevel
  · rw [if_pos h]
    split
    · rename_i a hd
      rw [actorLoop_eq_genreLoop]
      exact genreLoop_avoid P perLevel sid (splitComma a) sr.1 sr.2 hs hr
    · exact ⟨hs, hr⟩
  · rw [if_neg h]; exact ⟨hs, hr⟩

/-! ### C2: length bound, and the seed exclusion (corrected) -/

/-- The seed the C2 counterexample resolves: its `imdbID` is the empty
string, which the code deliberately does not place into the `seen` set
(`ok && id != ""`). -/
def seed2bad : DetailRecord :=
  [("Response", JVal.str "True"), ("imdbID", JVal.str ""), ("Genre", JVal.str "X")]

/-- A candidate record whose `imdbID` is also the empty string. -/
def rec2bad : DetailRecord := [("Genre", JVal.str "X"), ("imdbID", JVal.str "")]

/-- A provider under which the recommendation list contains an entry whose
`imdbID` equals the seed's own (empty) `imdbID`. -/
def P2bad : Provider where
  byTitle := fun t => if t = "fav" then some seed2bad else none
  search := fun k p =>
    if k = "the" ∧ p = 1 then some ⟨some [⟨"T", "h1", "movie"⟩], "True", ""⟩
    else none
  byID := fun id => if id = "h1" then some rec2bad else none

/-- C2 counterexample: as stated, the claim is false — when the seed's
`imdbID` is the empty string, the code does not seed the `seen` set with it,
and a recommended entry can carry that same (empty) `imdbID`. -/
theorem C2_counterexample :
    ¬ (∀ res, recommend P2bad "fav" = some res →
        ∀ m ∈ res.recs, ∀ sid, getStr res.seed "imdbID" = some sid →
          getStr m "imdbID" ≠ some sid) := by
  intro hcl
  exact hcl ⟨seed2bad, [rec2bad]⟩ (by decide) rec2bad (by simp) "" (by decide)
    (by decide)

/-- C2 (amended): for every favourite whose seed resolves, the
recommendation list has at most 20 entries; and whenever the seed's
`imdbID` is a non-empty string, no recommended entry carries it. -/
theorem C2_recommend_bound_and_seed_exclusion (P : Provider) (fav : String)
    (res : RecResult) (h : recommend P fav = some res) :
    res.recs.length ≤ 20 ∧
    ∀ sid, getStr res.seed "imdbID" = some sid → sid ≠ "" →
      ∀ m ∈ res.recs, getStr m "imdbID" ≠ some sid := by
  unfold recommend at h
  cases ht : getDetailByTitle P fav with
  | none => rw [ht] at h; cases h
  | some seed =>
    rw [ht] at h
    have hres : res = ⟨seed,
        ((actorPhase P seed (directorPhase P seed (genrePhase P seed))).2).take
          perLevel⟩ := by
      cases h; rfl
    subst hres
    constructor
    · exact le_trans (List.length_take_le perLevel _) (le_of_eq rfl)
    · intro sid hsid hne m hm
      have h0 : sid ∈ seedSeen seed := by
        unfold seedSeen
        rw [hsid]
        simp [hne]
      have h1 := @genrePhase_avoid P seed sid h0
      have h2 := @directorPhase_avoid P seed sid (genrePhase P seed) h1.1 h1.2
      have h3 := @actorPhase_avoid P seed sid
        (directorPhase P seed (genrePhase P seed)) h2.1 h2.2
      exact h3.2 m (List.take_subset _ _ hm)

/-- A well-behaved provider for the C2/C9 witnesses: the seed resolves with
`imdbID` `"sd"` and one horror candidate is recommended. -/
def Psmall : Provider where
  byTitle := fun t =>
    if t = "fav" then
      some [("Response", JVal.str "True"), ("imdbID", JVal.str "sd"),
        ("Genre", JVal.str "Horror")]
    else none
  search := fun k p =>
    if k = "the" ∧ p = 1 then some ⟨some [⟨"A", "c1", "movie"⟩], "True", ""⟩
    else none
  byID := fun id =>
    if id = "c1" then some [("Genre", JVal.str "Horror"), ("imdbID", JVal.str "c1")]
    else none

/-- The concrete value `recommend Psmall "fav"` computes to. -/
def res2w : RecResult :=
  ⟨[("Response", JVal.str "True"), ("imdbID", JVal.str "sd"),
      ("Genre", JVal.str "Horror")],
   [[("Genre", JVal.str "Horror"), ("imdbID", JVal.str "c1")]]⟩

/-- C2 witness: the amended statement instantiated at `Psmall`. -/
theorem C2_witness :
    res2w.recs.length ≤ 20 ∧
    ∀ sid, getStr res2w.seed "imdbID" = some sid → sid ≠ "" →
      ∀ m ∈ res2w.recs, getStr m "imdbID" ≠ some sid :=
  C2_recommend_bound_and_seed_exclusion Psmall "fav" res2w (by decide)

/-! ### C9: pairwise-distinct imdbIDs across all phases -/

/-- The admission loop's distinctness invariant: if every accumulated record
carries a string `imdbID` registered in `seen`, and the accumulated records
have pairwise-distinct `imdbID`s, both facts persist (with the final `seen`),
and `seen` only grows. -/
theorem admitLoop_distinct (perLvl : Nat) :
    ∀ (cands : List DetailRecord) (seen : List String)
      (result : List DetailRecord),
      (∀ m ∈ result, ∃ id, getStr m "imdbID" = some id ∧ id ∈ seen) →
      result.Pairwise (fun a b => getStr a "imdbID" ≠ getStr b "imdbID") →
      (∀ s ∈ seen, s ∈ (admitLoop perLvl seen result cands).1) ∧
      (∀ m ∈ (admitLoop perLvl seen result cands).2,
        ∃ id, getStr m "imdbID" = some id ∧
          id ∈ (admitLoop perLvl seen result cands).1) ∧
      (admitLoop perLvl seen result cands).2.Pairwise
        (fun a b => getStr a "imdbID" ≠ getStr b "imdbID") := by
  intro cands
  induction cands with
  | nil => intro seen result hin hpw; exact ⟨fun s hs => hs, hin, hpw⟩
  | cons m ms ih =>
    intro seen result hin hpw
    unfold admitLoop
    split
    · rename_i id hid
      split
      · exact ih seen result hin hpw
      · rename_i hnotin
        have hin' : ∀ m' ∈ result ++ [m],
            ∃ i, getStr m' "imdbID" = some i ∧ i ∈ id :: seen := by
          intro m' hm'
          rcases List.mem_append.mp hm' with hmem | hmem
          · rcases hin m' hmem with ⟨i, hi1, hi2⟩
            exact ⟨i, hi1, List.mem_cons_of_mem id hi2⟩
          · rcases List.mem_singleton.mp hmem with rfl
            exact ⟨id, hid, List.mem_cons_self id seen⟩
        have hpw' : (result ++ [m]).Pairwise
            (fun a b => getStr a "imdbID" ≠ getStr b "imdbID") := by
          rw [List.pairwise_append]
          refine ⟨hpw, by simp, ?_⟩
          intro a ha b hb
          rcases List.mem_singleton.mp hb with rfl
          rcases hin a ha with ⟨i, hi1, hi2⟩
          rw [hi1, hid]
          intro hcontra
          exact hnotin ((Option.some.injEq _ _ ▸ hcontra : i = id) ▸ hi2)
        split
        · exact ⟨fun s hs => List.mem_cons_of_mem id hs, hin', hpw'⟩
        · rcases ih (id :: seen) (result ++ [m]) hin' hpw' with ⟨g1, g2, g3⟩
          exact ⟨fun s hs => g1 s (List.mem_cons_of_mem id hs), g2, g3⟩
    · exact ih seen result hin hpw

/-- The phase loops preserve the distinctness invariant (stated for the
genre loop; the other two loops are extensionally equal to it). -/
theorem genreLoop_distinct (P : Provider) (perLvl : Nat) :
    ∀ (ts seen : List String) (result : List DetailRecord),
      (∀ m ∈ result, ∃ id, getStr m "imdbID" = some id ∧ id ∈ seen) →
      result.Pairwise (fun a b => getStr a "imdbID" ≠ getStr b "imdbID") →
      (∀ m ∈ (genreLoop P perLvl seen result ts).2,
        ∃ id, getStr m "imdbID" = some id ∧
          id ∈ (genreLoop P perLvl seen result ts).1) ∧
      (genreLoop P perLvl seen result ts).2.Pairwise
        (fun a b => getStr a "imdbID" ≠ getStr b "imdbID") := by
  intro ts
  induction ts with
  | nil => intro seen result hin hpw; exact ⟨hin, hpw⟩
  | cons t ts ih =>
    intro seen result hin hpw
    unfold genreLoop
    have hstep := admitLoop_distinct perLvl
      (topByRating (collectByGenre P (strTrim t) perLvl) perLvl) seen result hin hpw
    by_cases h : perLvl ≤ (phaseStep P perLvl seen result t).2.length
    · rw [if_pos h]; exact ⟨hstep.2.1, hstep.2.2⟩
    · rw [if_neg h]; exact ih _ _ hstep.2.1 hstep.2.2

theorem genrePhase_distinct (P : Provider) (seed : DetailRecord) :
    (∀ m ∈ (genrePhase P seed).2,
      ∃ id, getStr m "imdbID" = some id ∧ id ∈ (genrePhase P seed).1) ∧
    (genrePhase P seed).2.Pairwise
      (fun a b => getStr a "imdbID" ≠ getStr b "imdbID") := by
  unfold genrePhase
  split
  · exact genreLoop_distinct P perLevel _ _ [] (by simp) (by simp)
  · exact ⟨by simp, by simp⟩

theorem directorPhase_distinct (P : Provider) (seed : DetailRecord)
    (sr : List String × List DetailRecord)
    (hin : ∀ m ∈ sr.2, ∃ id, getStr m "imdbID" = some id ∧ id ∈ sr.1)
    (hpw : sr.2.Pairwise (fun a b => getStr a "imdbID" ≠ getStr b "imdbID")) :
    (∀ m ∈ (directorPhase P seed sr).2,
      ∃ id, getStr m "imdbID" = some id ∧ id ∈ (directorPhase P seed sr).1) ∧
    (directorPhase P seed sr).2.Pairwise
      (fun a b => getStr a "imdbID" ≠ getStr b "imdbID") := by
  unfold directorPhase
  by_cases h : sr.2.length < perLevel
  · rw [if_pos h]
    split
    · rename_i d hd
      rw [directorLoop_eq_genreLoop]
      exact genreLoop_distinct P perLevel (splitComma d) sr.1 sr.2 hin hpw
    · exact ⟨hin, hpw⟩
  · rw [if_neg h]; exact ⟨hin, hpw⟩

theorem actorPhase_distinct (P : Provider) (seed : DetailRecord)
    (sr : List String × List DetailRecord)
    (hin : ∀ m ∈ sr.2, ∃ id, getStr m "imdbID" = some id ∧ id ∈ sr.1)
    (hpw : sr.2.Pairwise (fun a b => getStr a "imdbID" ≠ getStr b "imdbID")) :
    (∀ m ∈ (actorPhase P seed sr).2,
      ∃ id, getStr m "imdbID" = some id ∧ id ∈ (actorPhase P seed sr).1) ∧
    (actorPhase P seed sr).2.Pairwise
      (fun a b => getStr a "imdbID" ≠ getStr b "imdbID") := by
  unfold actorPhase
  by_cases h : sr.2.length < perLevel
  · rw [if_pos h]
    split
    · rename_i a hd
      rw [actorLoop_eq_genreLoop]
      exact genreLoop_distinct P perLevel (splitComma a) sr.1 sr.2 hin hpw
    · exact ⟨hin, hpw⟩
  · rw [if_neg h]; exact ⟨hin, hpw⟩

/-- C9: the recommendation list has pairwise-distinct `imdbID`s across all
three phases — the shared `seen` set ensures a candidate admitted once is
never admitted again — and every recommended record carries one string
`imdbID`. -/
theorem C9_recommend_distinct_ids (P : Provider) (fav : String)
    (res : RecResult) (h : recommend P fav = some res) :
    res.recs.Pairwise (fun a b => getStr a "imdbID" ≠ getStr b "imdbID") ∧
    ∀ m ∈ res.recs, (getStr m "imdbID").isSome = true := by
  unfold recommend at h
  cases ht : getDetailByTitle P fav with
  | none => rw [ht] at h; cases h
  | some seed =>
    rw [ht] at h
    have hres : res = ⟨seed,
        ((actorPhase P seed (directorPhase P seed (genrePhase P seed))).2).take
          perLevel⟩ := by
      cases h; rfl
    subst hres
    have h1 := genrePhase_distinct P seed
    have h2 := directorPhase_distinct P seed _ h1.1 h1.2
    have h3 := actorPhase_distinct P seed _ h2.1 h2.2
    constructor
    · exact h3.2.sublist (List.take_sublist _ _)
    · intro m hm
      rcases h3.1 m (List.take_subset _ _ hm) with ⟨id, hid, _⟩
      rw [hid]
      rfl

/-- C9 witness: the distinctness facts at the concrete provider `Psmall`. -/
theorem C9_witness :
    res2w.recs.Pairwise (fun a b => getStr a "imdbID" ≠ getStr b "imdbID") ∧
    ∀ m ∈ res2w.recs, (getStr m "imdbID").isSome = true :=
  C9_recommend_distinct_ids Psmall "fav" res2w (by decide)

/-! ### C4: phase ordering -/

/-- C4: `perLevel` is 20; the director phase is a no-op whenever at least
`perLevel` recommendations are already accumulated, and so is the actor
phase; consequently, whenever the genre phase reaches `perLevel`, the final
recommendation list is exactly the genre phase's output (truncated) — it
contains no candidate admitted by the director or actor phase. -/
theorem C4_phase_entry_conditions :
    perLevel = 20 ∧
    (∀ (P : Provider) (seed : DetailRecord)
        (sr : List String × List DetailRecord),
      perLevel ≤ sr.2.length → directorPhase P seed sr = sr) ∧
    (∀ (P : Provider) (seed : DetailRecord)
        (sr : List String × List DetailRecord),
      perLevel ≤ sr.2.length → actorPhase P seed sr = sr) ∧
    (∀ (P : Provider) (fav : String) (seed : DetailRecord),
      getDetailByTitle P fav = some seed →
      perLevel ≤ (genrePhase P seed).2.length →
      recommend P fav = some ⟨seed, (genrePhase P seed).2.take perLevel⟩) := by
  have hdir : ∀ (P : Provider) (seed : DetailRecord)
      (sr : List String × List DetailRecord),
      perLevel ≤ sr.2.length → directorPhase P seed sr = sr := by
    intro P seed sr h
    unfold directorPhase
    rw [if_neg (not_lt.mpr h)]
  have hact : ∀ (P : Provider) (seed : DetailRecord)
      (sr : List String × List DetailRecord),
      perLevel ≤ sr.2.length → actorPhase P seed sr = sr := by
    intro P seed sr h
    unfold actorPhase
    rw [if_neg (not_lt.mpr h)]
  refine ⟨rfl, hdir, hact, ?_⟩
  intro P fav seed hres hlen
  unfold recommend
  rw [hres]
  show some (⟨seed,
      ((actorPhase P seed (directorPhase P seed (genrePhase P seed))).2).take
        perLevel⟩ : RecResult) =
    some ⟨seed, (genrePhase P seed).2.take perLevel⟩
  rw [hdir P seed _ hlen, hact P seed _ hlen]

/-- The seed for the C4 witness. -/
def seed4w : DetailRecord :=
  [("Response", JVal.str "True"), ("imdbID", JVal.str "s0"),
   ("Genre", JVal.str "g")]

/-- Twenty search hits with distinct ids. -/
def hits4w : List searchItem :=
  [⟨"T", "i01", "movie"⟩, ⟨"T", "i02", "movie"⟩, ⟨"T", "i03", "movie"⟩,
   ⟨"T", "i04", "movie"⟩, ⟨"T", "i05", "movie"⟩, ⟨"T", "i06", "movie"⟩,
   ⟨"T", "i07", "movie"⟩, ⟨"T", "i08", "movie"⟩, ⟨"T", "i09", "movie"⟩,
   ⟨"T", "i10", "movie"⟩, ⟨"T", "i11", "movie"⟩, ⟨"T", "i12", "movie"⟩,
   ⟨"T", "i13", "movie"⟩, ⟨"T", "i14", "movie"⟩, ⟨"T", "i15", "movie"⟩,
   ⟨"T", "i16", "movie"⟩, ⟨"T", "i17", "movie"⟩, ⟨"T", "i18", "movie"⟩,
   ⟨"T", "i19", "movie"⟩, ⟨"T", "i20", "movie"⟩]

/-- A provider whose genre phase reaches the full 20 candidates. -/
def P4w : Provider where
  byTitle := fun t => if t = "fav" then some seed4w else none
  search := fun k p =>
    if k = "the" ∧ p = 1 then some ⟨some hits4w, "True", ""⟩ else none
  byID := fun id =>
    if id = "" then none
    else some [("Genre", JVal.str "g"), ("imdbID", JVal.str id)]

/-- A list of 20 already-accumulated records. -/
def rs20 : List DetailRecord := List.replicate 20 []

/-- C4 witness: the no-op facts at a full accumulator, and the
genre-phase-saturation fact at the concrete provider `P4w`. -/
theorem C4_witness :
    perLevel = 20 ∧
    directorPhase P4w seed4w ([], rs20) = ([], rs20) ∧
    actorPhase P4w seed4w ([], rs20) = ([], rs20) ∧
    recommend P4w "fav" =
      some ⟨seed4w, (genrePhase P4w seed4w).2.take perLevel⟩ :=
  ⟨C4_phase_entry_conditions.1,
   C4_phase_entry_conditions.2.1 P4w seed4w ([], rs20) (by decide),
   C4_phase_entry_conditions.2.2.1 P4w seed4w ([], rs20) (by decide),
   C4_phase_entry_conditions.2.2.2 P4w "fav" seed4w (by decide) (by decide)⟩

/-! ### C5: distinctness of the collector's output (corrected) -/

/-- A provider serving, under two distinct search-hit ids, detail records
that both carry the same `imdbID` field `"z"`. -/
def P5bad : Provider where
  byTitle := fun _ => none
  search := fun k p =>
    if k = "the" ∧ p = 1 then
      some ⟨some [⟨"T1", "a", "movie"⟩, ⟨"T2", "b", "movie"⟩], "True", ""⟩
    else none
  byID := fun id =>
    if id = "a" ∨ id = "b" then
      some [("Genre", JVal.str "x"), ("imdbID", JVal.str "z")]
    else none

/-- C5 counterexample: as stated — over every provider behaviour — the claim
is false: the collector deduplicates by the search hit's `imdbID`, not by
the fetched record's own `imdbID` field, so a provider that returns records
with identical `imdbID` fields under different hit ids makes `collectByGenre`
emit two records with the same `imdbID`. -/
theorem C5_counterexample :
    ¬ (collectByGenre P5bad "x" 10).Pairwise
        (fun a b => getStr a "imdbID" ≠ getStr b "imdbID") := by
  decide

/-- C5 (amended): the keys of the collector's dedup map — the search-hit
`imdbID`s under which the records were fetched — are pairwise distinct; and
whenever the provider's by-ID responses carry the queried id in their
`imdbID` field (as the real upstream does), the emitted records' `imdbID`
fields are pairwise distinct. -/
theorem C5_collector_distinct_ids (P : Provider) (gen : String) (limit : Nat)
    (hP : ∀ id md, P.byID id = some md → getStr md "imdbID" = some id) :
    ((collectSeeds P gen limit [] kwSeeds).map Prod.fst).Nodup ∧
    (collectByGenre P gen limit).Pairwise
      (fun a b => getStr a "imdbID" ≠ getStr b "imdbID") := by
  have hinv := collectByGenre_inv P gen limit
  refine ⟨hinv.2, ?_⟩
  unfold collectByGenre
  rw [List.pairwise_map]
  have hkeys : ((collectSeeds P gen limit [] kwSeeds).map Prod.fst).Pairwise
      (fun a b => a ≠ b) := hinv.2
  rw [List.pairwise_map] at hkeys
  refine hkeys.imp_of_mem ?_
  intro p q hp hq hne
  have hp' : getStr p.2 "imdbID" = some p.1 :=
    hP p.1 p.2 (getDetailByID_spec (hinv.1 p hp).2.1).1
  have hq' : getStr q.2 "imdbID" = some q.1 :=
    hP q.1 q.2 (getDetailByID_spec (hinv.1 q hq).2.1).1
  rw [hp', hq']
  intro hcontra
  exact hne (Option.some.injEq _ _ ▸ hcontra)

/-- C5 witness: the amended statement at the concrete provider `Psmall`,
whose by-ID responses echo the queried id. -/
theorem C5_witness :
    ((collectSeeds Psmall "horror" 10 [] kwSeeds).map Prod.fst).Nodup ∧
    (collectByGenre Psmall "horror" 10).Pairwise
      (fun a b => getStr a "imdbID" ≠ getStr b "imdbID") :=
  C5_collector_distinct_ids Psmall "horror" 10 (by
    intro id md h
    simp only [Psmall] at h
    split at h
    · rename_i hid
      cases h
      subst hid
      decide
    · cases h)

/-! ### C6: the candidate-set invariant (corrected) -/

/-- A provider whose by-ID response carries a `Response` value that is
neither `"True"` nor `"False"`. -/
def P6bad : Provider where
  byTitle := fun _ => none
  search := fun k p =>
    if k = "the" ∧ p = 1 then some ⟨some [⟨"T", "a", "movie"⟩], "True", ""⟩
    else none
  byID := fun id =>
    if id = "a" then
      some [("Genre", JVal.str "x"), ("Response", JVal.str "Maybe")]
    else none

/-- C6 counterexample: `getDetailByID` rejects only `Response == "False"`,
so a record with `Response` equal to `"Maybe"` — neither `"True"` nor absent
— is inserted into the candidate set. -/
theorem C6_counterexample :
    ¬ (∀ md ∈ collectByGenre P6bad "x" 5,
        getStr md "Response" = some "True" ∨ md.lookup "Response" = none) := by
  decide

/-- C6 (amended): every record in the collector's candidate set is keyed by
a non-empty search-hit `imdbID`, and its `Response` field is not the string
`"False"` (the only value the fetch path rejects; anything else, `"True"`,
absent, or arbitrary, passes). -/
theorem C6_candidate_set_invariant (P : Provider) (gen : String)
    (limit : Nat) :
    (∀ p ∈ collectSeeds P gen limit [] kwSeeds,
      p.1 ≠ "" ∧ getStr p.2 "Response" ≠ some "False") ∧
    ∀ md ∈ collectByGenre P gen limit,
      getStr md "Response" ≠ some "False" := by
  have hinv := collectByGenre_inv P gen limit
  constructor
  · intro p hp
    exact ⟨(hinv.1 p hp).1, (getDetailByID_spec (hinv.1 p hp).2.1).2⟩
  · intro md hmd
    rcases List.mem_map.mp hmd with ⟨p, hp, rfl⟩
    exact (getDetailByID_spec (hinv.1 p hp).2.1).2

/-- The single entry of `Psmall`'s candidate set. -/
def p6w : String × DetailRecord :=
  ("c1", [("Genre", JVal.str "Horror"), ("imdbID", JVal.str "c1")])

/-- C6 witness: the amended invariant at the concrete provider `Psmall`. -/
theorem C6_witness :
    (p6w.1 ≠ "" ∧ getStr p6w.2 "Response" ≠ some "False") ∧
    getStr md1w "Response" ≠ some "False" :=
  ⟨(C6_candidate_set_invariant Psmall "horror" 10).1 p6w (by decide),
   (C6_candidate_set_invariant Psmall "horror" 10).2 md1w (by decide)⟩

/-! ### C10: the empty filter admits every fetched hit with a string Genre -/

/-- Comparison definition following the claim's words: the collector's inner
loop with the admission test replaced by "the fetched record's `Genre` field
is a string" — no substring test at all. -/
def collectItemsAny (P : Provider) (limit : Nat)
    (found : List (String × DetailRecord)) :
    List searchItem → List (String × DetailRecord)
  | [] => found
  | it :: rest =>
    if it.ImdbID = "" then collectItemsAny P limit found rest
    else if (found.lookup it.ImdbID).isSome then collectItemsAny P limit found rest
    else
      match getDetailByID P it.ImdbID with
      | none => collectItemsAny P limit found rest
      | some md =>
        if (getStr md "Genre").isSome then
          if limit ≤ (found ++ [(it.ImdbID, md)]).length then
            found ++ [(it.ImdbID, md)]
          else collectItemsAny P limit (found ++ [(it.ImdbID, md)]) rest
        else collectItemsAny P limit found rest

/-- Comparison definition: the keyword loop over `collectItemsAny`. -/
def collectSeedsAny (P : Provider) (limit : Nat)
    (found : List (String × DetailRecord)) :
    List String → List (String × DetailRecord)
  | [] => found
  | k :: ks =>
    match searchByKeyword P k 1 with
    | none => collectSeedsAny P limit found ks
    | some items =>
      let found2 := collectItemsAny P limit found items
      if limit ≤ found2.length then found2
      else collectSeedsAny P limit found2 ks

/-- Comparison definition: the collector that admits every distinct
successfully fetched hit whose record has a string `Genre`, up to the
limit. -/
def collectByGenreAny (P : Provider) (limit : Nat) : List DetailRecord :=
  (collectSeedsAny P limit [] kwSeeds).map Prod.snd

theorem containsL_nil (l : List Char) : containsL [] l = true := by
  cases l with
  | nil => rfl
  | cons c t => simp [containsL, isPrefixL]

/-- With the empty filter the admission test degenerates to "the `Genre`
field is a string". -/
theorem genreMatches_empty (md : DetailRecord) :
    genreMatches md "" = (getStr md "Genre").isSome := by
  unfold genreMatches
  cases hg : getStr md "Genre" with
  | none => rfl
  | some g =>
    show strContains (strToLower g) (strToLower "") = true
    show containsL (strToLower "").toList (strToLower g).toList = true
    exact containsL_nil _

theorem collectItems_empty_eq (P : Provider) (limit : Nat) :
    ∀ (items : List searchItem) (found : List (String × DetailRecord)),
      collectItems P "" limit found items = collectItemsAny P limit found items := by
  intro items
  induction items with
  | nil => intro found; rfl
  | cons it rest ih =>
    intro found
    unfold collectItems collectItemsAny
    split
    · exact ih found
    split
    · exact ih found
    split
    · exact ih found
    rename_i md hmd
    rw [genreMatches_empty md]
    split
    · split
      · rfl
      · exact ih _
    · exact ih found

theorem collectSeeds_empty_eq (P : Provider) (limit : Nat) :
    ∀ (ks : List String) (found : List (String × DetailRecord)),
      collectSeeds P "" limit found ks = collectSeedsAny P limit found ks := by
  intro ks
  induction ks with
  | nil => intro found; rfl
  | cons k rest ih =>
    intro found
    unfold collectSeeds collectSeedsAny
    split
    · exact ih found
    rw [collectItems_empty_eq]
    dsimp only
    split
    · rfl
    · exact ih _

/-- C10: the empty filter string — which arises in `recommend` whenever
comma-splitting and trimming a seed field yields an empty token, e.g. for a
trailing comma — makes the case-insensitive substring test accept every
record whose `Genre` field is a string, so `collectByGenre` with filter `""`
behaves exactly like the collector that admits every distinct successfully
fetched search hit with a string `Genre`, up to the limit, regardless of
genre. -/
theorem C10_empty_filter_admits_all :
    (∀ md : DetailRecord, genreMatches md "" = (getStr md "Genre").isSome) ∧
    (splitComma "Drama,").map strTrim = ["Drama", ""] ∧
    (∀ (P : Provider) (limit : Nat),
      collectByGenre P "" limit = collectByGenreAny P limit) := by
  refine ⟨genreMatches_empty, by decide, ?_⟩
  intro P limit
  unfold collectByGenre collectByGenreAny
  rw [collectSeeds_empty_eq]

end MovieAPI
